import Mathlib

/-!
# Grant Ships — ledger model

A shallow embedding of the budget/allocation/distribution ledger of
`src/server.js` (the "Grant Ships" service).  Currency amounts are JS
`BigInt` values stored as decimal strings in the source; we model them as
`Int`.  JS `Map`s (insertion-ordered, keyed by id) are modelled as
association lists.  The external payment collaborator
(`wallet.sendTransaction`) is modelled by a success oracle
`ok : Alloc → Bool` giving the outcome of the payout attempt for each
allocation; the configured-wallet check is modelled by `hasWallet : Bool`.
-/

namespace GrantShips

/-- JS `BigInt` division truncates toward zero. -/
def bigintDiv (a b : Int) : Int := Int.tdiv a b

/-- A JSON value as it may appear in a request-body field
(`approved`, in particular, is compared with `=== false` in the source). -/
inductive JVal where
  | bool (b : Bool)
  | str (s : String)
  | num (n : Int)
  | null
deriving DecidableEq, Repr

/-- Ship (round) status: `'open' | 'closed' | 'distributing' | 'completed'`. -/
inductive ShipStatus where
  | opened
  | closed
  | distributing
  | completed
deriving DecidableEq, Repr

/-- Application status: `'pending' | 'approved' | 'rejected'`. -/
inductive AppStatus where
  | pending
  | approved
  | rejected
deriving DecidableEq, Repr

/-- The ledger-relevant fields of a ship (round) object.  `captain` is
stored lowercase-normalised at creation (`captain.toLowerCase()`). -/
structure Ship where
  budget : Int
  allocated : Int
  distributed : Int
  captain : String
  status : ShipStatus
deriving DecidableEq, Repr

/-- The ledger-relevant fields of an application object. -/
structure Application where
  shipId : String
  applicant : String
  projectName : String
  status : AppStatus
  allocation : Int
deriving DecidableEq, Repr

/-- An allocation object (`allocations` map entry). -/
structure Alloc where
  id : String
  shipId : String
  applicationId : String
  projectName : String
  applicant : String
  amount : Int
  distributed : Bool
deriving DecidableEq, Repr

/-- The three stores touched by the ledger (`ships`, `applications`,
`allocations` JS maps; allocations keyed by their own `id` field). -/
structure St where
  ships : List (String × Ship)
  apps : List (String × Application)
  allocs : List Alloc
deriving DecidableEq, Repr

/-- `map.get(k)` on a JS map modelled as an association list. -/
def getMap {α : Type} (l : List (String × α)) (k : String) : Option α :=
  (l.find? (fun p => p.1 == k)).map Prod.snd

/-- `map.set(k, v)`: update in place if the key is present (keeping its
position), otherwise append. -/
def setMap {α : Type} (l : List (String × α)) (k : String) (v : α) :
    List (String × α) :=
  if l.any (fun p => p.1 == k) then
    l.map (fun p => if p.1 == k then (k, v) else p)
  else l ++ [(k, v)]

/-- `s.toLowerCase()` (kernel-reducible model of `String.toLower`). -/
def lowerString (s : String) : String := String.mk (s.data.map Char.toLower)

/-- Numeric value of a list of decimal digits. -/
def digitsVal (l : List Char) : Nat :=
  l.foldl (fun a c => a * 10 + (c.toNat - 48)) 0

/-- Split a character list at every `'.'` (semantics of `splitOn "."`). -/
def splitDots : List Char → List (List Char)
  | [] => [[]]
  | c :: rest =>
    match splitDots rest with
    | [] => [[]]
    | g :: gs => if c = '.' then [] :: g :: gs else (c :: g) :: gs

/-- `ethers.parseEther` (= `parseUnits` with 18 decimals, i.e.
`FixedNumber.fromString` against the pattern `(-?)([0-9]*)[.]?([0-9]*)`):
an optional sign, digits, at most one decimal point, at least one digit,
fractional digits beyond the 18th allowed only when they are all zero.
Note it accepts negative amounts. -/
def parseEther (s : String) : Option Int :=
  let neg : Bool := match s.data with | '-' :: _ => true | _ => false
  let body := if neg then s.data.tail else s.data
  match splitDots body with
  | [w] =>
    if !w.isEmpty && w.all Char.isDigit then
      let v : Int := (digitsVal w : Int) * 10 ^ 18
      some (if neg then -v else v)
    else none
  | [w, f] =>
    if (!w.isEmpty || !f.isEmpty) && w.all Char.isDigit && f.all Char.isDigit
        && (f.drop 18).all (fun c => c == '0') then
      let fr := f.take 18
      let v : Int :=
        (digitsVal w : Int) * 10 ^ 18 + (digitsVal fr : Int) * 10 ^ (18 - fr.length)
      some (if neg then -v else v)
    else none
  | _ => none

/-- `(amount || '0').toString()` for a string-or-absent `amount` field
(absent and the empty string are falsy and default to `'0'`). -/
def amountString (amount : Option String) : String :=
  match amount with
  | none => "0"
  | some s => if s = "" then "0" else s

/-- Outcome of `POST /applications/:id/allocate`. -/
inductive DecideOutcome where
  | errAppNotFound
  | errShipNotFound
  | errForbidden
  | rejected
  | errInvalidAmount
  | errInsufficientBudget (remaining requested : Int)
  | allocated (amount : Int)
deriving DecidableEq, Repr

/-- `POST /applications/:id/allocate`: the captain's decision on an
application.  `newAllocId` stands for the fresh uuid of the allocation
object created on approval.  Returns the outcome together with the store
state after the request. -/
def decideAllocation (st : St) (appId : String) (captain : Option String)
    (amount : Option String) (approved : Option JVal) (newAllocId : String) :
    DecideOutcome × St :=
  match getMap st.apps appId with
  | none => (.errAppNotFound, st)
  | some app =>
    match getMap st.ships app.shipId with
    | none => (.errShipNotFound, st)
    | some ship =>
      if captain.map lowerString ≠ some ship.captain then
        (.errForbidden, st)
      else if approved = some (JVal.bool false) then
        (.rejected,
         { st with apps := setMap st.apps appId { app with status := .rejected } })
      else
        match parseEther (amountString amount) with
        | none => (.errInvalidAmount, st)
        | some allocWei =>
          let remaining := ship.budget - ship.allocated
          if allocWei > remaining then
            (.errInsufficientBudget remaining allocWei, st)
          else
            (.allocated allocWei,
             { ships := setMap st.ships app.shipId
                 { ship with allocated := ship.allocated + allocWei },
               apps := setMap st.apps appId
                 { app with status := .approved, allocation := allocWei },
               allocs := st.allocs ++
                 [{ id := newAllocId, shipId := app.shipId, applicationId := appId,
                    projectName := app.projectName, applicant := app.applicant,
                    amount := allocWei, distributed := false }] })

/-- The allocations selected by `POST /ships/:id/distribute`:
`a.shipId === ship.id && !a.distributed && BigInt(a.amount) > 0n`. -/
def pendingAllocations (st : St) (shipId : String) : List Alloc :=
  st.allocs.filter
    (fun a => a.shipId == shipId && !a.distributed && decide (0 < a.amount))

/-- Per-allocation net payout: `(BigInt(alloc.amount) * 95n) / 100n`. -/
def netAmount (amount : Int) : Int := bigintDiv (amount * 95) 100

/-- A successful payout entry pushed onto the run's `payouts` array. -/
structure Payout where
  allocationId : String
  projectName : String
  applicant : String
  gross : Int
  net : Int
deriving DecidableEq, Repr

/-- The payout entry recorded for a successfully paid allocation. -/
def mkPayout (a : Alloc) : Payout :=
  { allocationId := a.id, projectName := a.projectName, applicant := a.applicant,
    gross := a.amount, net := netAmount a.amount }

/-- The sequential payout loop over the selected allocations:
`ok a` is whether the `sendTransaction` for allocation `a` succeeds
(the external payment collaborator modelled as a success oracle).  On
success the payout entry is appended and the allocation id is marked
distributed; on failure the loop just continues (`catch` logs and moves
on).  Returns the `payouts` list and the ids marked distributed, in
attempt order. -/
def payoutLoop (ok : Alloc → Bool) : List Alloc → List Payout × List String
  | [] => ([], [])
  | a :: rest =>
    let r := payoutLoop ok rest
    if ok a then (mkPayout a :: r.1, a.id :: r.2) else r

/-- The distribution record stored for a run (audit trail). -/
structure DistRecord where
  shipId : String
  totalGross : Int
  totalFee : Int
  totalNet : Int
  payouts : List Payout
deriving DecidableEq, Repr

/-- Outcome of `POST /ships/:id/distribute`. -/
inductive DistOutcome where
  | errShipNotFound
  | errWalletNotConfigured
  | errNothingToDistribute
  | ok (rec : DistRecord)
deriving DecidableEq, Repr

/-- `totalToDistribute = pendingAllocations.reduce((sum, a) => sum + BigInt(a.amount), 0n)`. -/
def totalToDistribute (pending : List Alloc) : Int :=
  pending.foldl (fun s a => s + a.amount) 0

/-- `fee = (totalToDistribute * FEE_PERCENT) / 100n` with `FEE_PERCENT = 5n`. -/
def feeOf (pending : List Alloc) : Int :=
  bigintDiv (totalToDistribute pending * 5) 100

/-- `netTotal = totalToDistribute - fee`. -/
def netTotalOf (pending : List Alloc) : Int :=
  totalToDistribute pending - feeOf pending

/-- `POST /ships/:id/distribute`: pay out all pending allocations of the
ship, net of the fixed 5% fee.  `hasWallet` models whether the signing
wallet is configured; `ok` is the payment-success oracle. -/
def distribute (st : St) (shipId : String) (hasWallet : Bool)
    (ok : Alloc → Bool) : DistOutcome × St :=
  match getMap st.ships shipId with
  | none => (.errShipNotFound, st)
  | some ship =>
    if !hasWallet then (.errWalletNotConfigured, st)
    else
      let pending := pendingAllocations st shipId
      if pending.isEmpty then (.errNothingToDistribute, st)
      else
        let r := payoutLoop ok pending
        let distributed' := ship.distributed + netTotalOf pending
        let status' : ShipStatus :=
          if distributed' ≥ ship.allocated then .completed else .distributing
        (.ok { shipId := shipId, totalGross := totalToDistribute pending,
               totalFee := feeOf pending, totalNet := netTotalOf pending,
               payouts := r.1 },
         { st with
             ships := setMap st.ships shipId
               { ship with distributed := distributed', status := status' },
             allocs := st.allocs.map
               (fun a => if r.2.contains a.id then { a with distributed := true }
                         else a) })

/-! ## Association-list (JS `Map`) lemmas -/

theorem getMap_cons {α : Type} (a : String × α) (l : List (String × α)) (k : String) :
    getMap (a :: l) k = if a.1 == k then some a.2 else getMap l k := by
  cases h : a.1 == k <;> simp [getMap, List.find?_cons, h]

theorem getMap_map_update {α : Type} (l : List (String × α)) (k : String) (v : α)
    (h : l.any (fun p => p.1 == k) = true) :
    getMap (l.map (fun p => if p.1 == k then (k, v) else p)) k = some v := by
  induction l with
  | nil => simp at h
  | cons a t ih =>
    simp only [List.map_cons, getMap_cons]
    cases hab : (a.1 == k) with
    | true =>
      rw [if_pos rfl]
      simp
    | false =>
      rw [if_neg (show ¬ (false = true) by simp)]
      rw [if_neg (show ¬ ((a.1 == k) = true) by simp [hab])]
      exact ih (by simpa [List.any_cons, hab] using h)

theorem getMap_append_last {α : Type} (l : List (String × α)) (k : String) (v : α)
    (h : l.any (fun p => p.1 == k) = false) :
    getMap (l ++ [(k, v)]) k = some v := by
  induction l with
  | nil => simp [getMap_cons]
  | cons a t ih =>
    simp only [List.any_cons, Bool.or_eq_false_iff] at h
    simp [getMap_cons, h.1, ih h.2]

theorem getMap_setMap_self {α : Type} (l : List (String × α)) (k : String) (v : α) :
    getMap (setMap l k v) k = some v := by
  unfold setMap
  cases h : l.any (fun p => p.1 == k) with
  | true =>
    rw [if_pos rfl]
    exact getMap_map_update l k v h
  | false =>
    rw [if_neg (by simp)]
    exact getMap_append_last l k v h

/-! ## Branch lemmas for `decideAllocation` -/

theorem decideAllocation_forbidden (st : St) (appId : String) (captain : Option String)
    (amount : Option String) (approved : Option JVal) (nid : String)
    (app : Application) (ship : Ship)
    (happ : getMap st.apps appId = some app)
    (hship : getMap st.ships app.shipId = some ship)
    (hcap : captain.map lowerString ≠ some ship.captain) :
    decideAllocation st appId captain amount approved nid = (.errForbidden, st) := by
  simp [decideAllocation, happ, hship, hcap]

theorem decideAllocation_reject (st : St) (appId : String) (captain : Option String)
    (amount : Option String) (nid : String)
    (app : Application) (ship : Ship)
    (happ : getMap st.apps appId = some app)
    (hship : getMap st.ships app.shipId = some ship)
    (hcap : captain.map lowerString = some ship.captain) :
    decideAllocation st appId captain amount (some (JVal.bool false)) nid =
      (.rejected,
       { st with apps := setMap st.apps appId { app with status := .rejected } }) := by
  simp [decideAllocation, happ, hship, hcap]

theorem decideAllocation_invalidAmount (st : St) (appId : String) (captain : Option String)
    (amount : Option String) (approved : Option JVal) (nid : String)
    (app : Application) (ship : Ship)
    (happ : getMap st.apps appId = some app)
    (hship : getMap st.ships app.shipId = some ship)
    (hcap : captain.map lowerString = some ship.captain)
    (hnr : approved ≠ some (JVal.bool false))
    (hparse : parseEther (amountString amount) = none) :
    decideAllocation st appId captain amount approved nid = (.errInvalidAmount, st) := by
  simp [decideAllocation, happ, hship, hcap, hnr, hparse]

theorem decideAllocation_insufficient (st : St) (appId : String) (captain : Option String)
    (amount : Option String) (approved : Option JVal) (nid : String)
    (app : Application) (ship : Ship) (w : Int)
    (happ : getMap st.apps appId = some app)
    (hship : getMap st.ships app.shipId = some ship)
    (hcap : captain.map lowerString = some ship.captain)
    (hnr : approved ≠ some (JVal.bool false))
    (hparse : parseEther (amountString amount) = some w)
    (hgt : ship.budget - ship.allocated < w) :
    decideAllocation st appId captain amount approved nid =
      (.errInsufficientBudget (ship.budget - ship.allocated) w, st) := by
  simp [decideAllocation, happ, hship, hcap, hnr, hparse, hgt]

theorem decideAllocation_success (st : St) (appId : String) (captain : Option String)
    (amount : Option String) (approved : Option JVal) (nid : String)
    (app : Application) (ship : Ship) (w : Int)
    (happ : getMap st.apps appId = some app)
    (hship : getMap st.ships app.shipId = some ship)
    (hcap : captain.map lowerString = some ship.captain)
    (hnr : approved ≠ some (JVal.bool false))
    (hparse : parseEther (amountString amount) = some w)
    (hle : w ≤ ship.budget - ship.allocated) :
    decideAllocation st appId captain amount approved nid =
      (.allocated w,
       { ships := setMap st.ships app.shipId
           { ship with allocated := ship.allocated + w },
         apps := setMap st.apps appId
           { app with status := .approved, allocation := w },
         allocs := st.allocs ++
           [{ id := nid, shipId := app.shipId, applicationId := appId,
              projectName := app.projectName, applicant := app.applicant,
              amount := w, distributed := false }] }) := by
  simp [decideAllocation, happ, hship, hcap, hnr, hparse, not_lt.mpr hle]

/-! ## `payoutLoop` characterisation -/

theorem payoutLoop_cons_true (ok : Alloc → Bool) (a : Alloc) (rest : List Alloc)
    (h : ok a = true) :
    payoutLoop ok (a :: rest) =
      (mkPayout a :: (payoutLoop ok rest).1, a.id :: (payoutLoop ok rest).2) := by
  simp [payoutLoop, h]

theorem payoutLoop_cons_false (ok : Alloc → Bool) (a : Alloc) (rest : List Alloc)
    (h : ok a = false) :
    payoutLoop ok (a :: rest) = payoutLoop ok rest := by
  simp [payoutLoop, h]

theorem payoutLoop_ids_iff (ok : Alloc → Bool) (l : List Alloc) (s : String) :
    s ∈ (payoutLoop ok l).2 ↔ ∃ a ∈ l, ok a = true ∧ a.id = s := by
  induction l with
  | nil => simp [payoutLoop]
  | cons a rest ih =>
    cases hok : ok a with
    | true =>
      rw [payoutLoop_cons_true ok a rest hok]
      simp only [List.mem_cons, ih]
      constructor
      · rintro (rfl | ⟨b, hb, hbok, hbs⟩)
        · exact ⟨a, Or.inl rfl, hok, rfl⟩
        · exact ⟨b, Or.inr hb, hbok, hbs⟩
      · rintro ⟨b, (rfl | hb), hbok, hbs⟩
        · exact Or.inl hbs.symm
        · exact Or.inr ⟨b, hb, hbok, hbs⟩
    | false =>
      rw [payoutLoop_cons_false ok a rest hok, ih]
      simp only [List.mem_cons]
      constructor
      · rintro ⟨b, hb, hbok, hbs⟩
        exact ⟨b, Or.inr hb, hbok, hbs⟩
      · rintro ⟨b, (rfl | hb), hbok, hbs⟩
        · rw [hok] at hbok
          exact Bool.noConfusion hbok
        · exact ⟨b, hb, hbok, hbs⟩

theorem payoutLoop_payouts_iff (ok : Alloc → Bool) (l : List Alloc) (p : Payout) :
    p ∈ (payoutLoop ok l).1 ↔ ∃ a ∈ l, ok a = true ∧ mkPayout a = p := by
  induction l with
  | nil => simp [payoutLoop]
  | cons a rest ih =>
    cases hok : ok a with
    | true =>
      rw [payoutLoop_cons_true ok a rest hok]
      simp only [List.mem_cons, ih]
      constructor
      · rintro (rfl | ⟨b, hb, hbok, hbs⟩)
        · exact ⟨a, Or.inl rfl, hok, rfl⟩
        · exact ⟨b, Or.inr hb, hbok, hbs⟩
      · rintro ⟨b, (rfl | hb), hbok, hbs⟩
        · exact Or.inl hbs.symm
        · exact Or.inr ⟨b, hb, hbok, hbs⟩
    | false =>
      rw [payoutLoop_cons_false ok a rest hok, ih]
      simp only [List.mem_cons]
      constructor
      · rintro ⟨b, hb, hbok, hbs⟩
        exact ⟨b, Or.inr hb, hbok, hbs⟩
      · rintro ⟨b, (rfl | hb), hbok, hbs⟩
        · rw [hok] at hbok
          exact Bool.noConfusion hbok
        · exact ⟨b, hb, hbok, hbs⟩

/-! ## Branch lemmas for `distribute` -/

theorem distribute_nothing (st : St) (sid : String) (ship : Ship) (ok : Alloc → Bool)
    (hship : getMap st.ships sid = some ship)
    (hemp : pendingAllocations st sid = []) :
    distribute st sid true ok = (.errNothingToDistribute, st) := by
  simp [distribute, hship, hemp]

theorem distribute_run (st : St) (sid : String) (ship : Ship) (ok : Alloc → Bool)
    (hship : getMap st.ships sid = some ship)
    (hne : pendingAllocations st sid ≠ []) :
    distribute st sid true ok =
      (.ok { shipId := sid,
             totalGross := totalToDistribute (pendingAllocations st sid),
             totalFee := feeOf (pendingAllocations st sid),
             totalNet := netTotalOf (pendingAllocations st sid),
             payouts := (payoutLoop ok (pendingAllocations st sid)).1 },
       { st with
           ships := setMap st.ships sid
             { ship with
                 distributed := ship.distributed + netTotalOf (pendingAllocations st sid),
                 status :=
                   if ship.distributed + netTotalOf (pendingAllocations st sid) ≥
                        ship.allocated
                   then ShipStatus.completed else ShipStatus.distributing },
           allocs := st.allocs.map
             (fun a =>
               if (payoutLoop ok (pendingAllocations st sid)).2.contains a.id
               then { a with distributed := true } else a) }) := by
  simp [distribute, hship, hne]

/-! ## The ledger invariant and concrete test states

Amounts below are in the smallest currency unit (wei). -/

/-- The spec's round invariant: `0 ≤ distributed ≤ allocated ≤ budget`. -/
def ledgerInvariant (s : Ship) : Prop :=
  0 ≤ s.distributed ∧ s.distributed ≤ s.allocated ∧ s.allocated ≤ s.budget

instance (s : Ship) : Decidable (ledgerInvariant s) := by
  unfold ledgerInvariant
  infer_instance

/-- A freshly created, unfunded ship with one pending application. -/
def ship0 : Ship :=
  { budget := 0, allocated := 0, distributed := 0, captain := "0xcap", status := .opened }

def app0 : Application :=
  { shipId := "s1", applicant := "0xalice", projectName := "proj",
    status := .pending, allocation := 0 }

def st0 : St := { ships := [("s1", ship0)], apps := [("a1", app0)], allocs := [] }

/-- A fully allocated ship with a single pending allocation of 100 units. -/
def ship2 : Ship :=
  { budget := 100, allocated := 100, distributed := 0, captain := "0xcap",
    status := .opened }

def alloc2 : Alloc :=
  { id := "al1", shipId := "s2", applicationId := "a2", projectName := "p",
    applicant := "0xalice", amount := 100, distributed := false }

def st2 : St := { ships := [("s2", ship2)], apps := [], allocs := [alloc2] }

/-- A ship whose application has already been approved (allocation 10). -/
def ship3 : Ship :=
  { budget := 100, allocated := 10, distributed := 0, captain := "0xcap",
    status := .opened }

def app3 : Application :=
  { shipId := "s3", applicant := "0xalice", projectName := "p3",
    status := .approved, allocation := 10 }

def alloc3 : Alloc :=
  { id := "al3", shipId := "s3", applicationId := "a3", projectName := "p3",
    applicant := "0xalice", amount := 10, distributed := false }

def st3 : St := { ships := [("s3", ship3)], apps := [("a3", app3)], allocs := [alloc3] }

/-- A ship whose application has already been rejected. -/
def app3r : Application :=
  { shipId := "s3", applicant := "0xalice", projectName := "p3",
    status := .rejected, allocation := 0 }

def st3r : St := { ships := [("s3", ship3)], apps := [("a3", app3r)], allocs := [] }

/-- A ship with two pending allocations (40 and 60 units). -/
def ship5 : Ship :=
  { budget := 100, allocated := 100, distributed := 0, captain := "0xcap",
    status := .opened }

def alloc5a : Alloc :=
  { id := "x1", shipId := "s5", applicationId := "a5a", projectName := "pa",
    applicant := "0xalice", amount := 40, distributed := false }

def alloc5b : Alloc :=
  { id := "x2", shipId := "s5", applicationId := "a5b", projectName := "pb",
    applicant := "0xbob", amount := 60, distributed := false }

def st5 : St :=
  { ships := [("s5", ship5)], apps := [], allocs := [alloc5a, alloc5b] }

/-- A ship whose single allocation has already been distributed. -/
def ship6 : Ship :=
  { budget := 100, allocated := 100, distributed := 95, captain := "0xcap",
    status := .distributing }

def alloc6 : Alloc :=
  { id := "al6", shipId := "s6", applicationId := "a6", projectName := "p6",
    applicant := "0xalice", amount := 100, distributed := true }

def st6 : St := { ships := [("s6", ship6)], apps := [], allocs := [alloc6] }

/-- A ship with one pending allocation of 1,000,000 units. -/
def ship8 : Ship :=
  { budget := 1000000, allocated := 1000000, distributed := 0, captain := "0xcap",
    status := .opened }

def alloc8 : Alloc :=
  { id := "al8", shipId := "s8", applicationId := "a8", projectName := "p",
    applicant := "0xalice", amount := 1000000, distributed := false }

def st8 : St := { ships := [("s8", ship8)], apps := [], allocs := [alloc8] }

/-! ## Claim theorems -/

/-- C1: the claim states that after every operation each round satisfies
`0 ≤ distributed ≤ allocated ≤ budget`.  The code violates it: `parseEther`
accepts the amount string `"-1"`, the `allocWei > remaining` check passes
(a negative wei amount is below the remaining budget of 0), and the decide
operation commits `allocated = -10^18 < 0`, breaking the invariant after a
single allocation decision on a fresh round. -/
theorem C1_invariant_broken_by_negative_allocation :
    (decideAllocation st0 "a1" (some "0xCAP") (some "-1") none "al1").1
        = .allocated (-(10 ^ 18)) ∧
    getMap (decideAllocation st0 "a1" (some "0xCAP") (some "-1") none "al1").2.ships "s1"
        = some { budget := 0, allocated := -(10 ^ 18), distributed := 0,
                 captain := "0xcap", status := .opened } ∧
    ¬ ledgerInvariant
        { budget := 0, allocated := -(10 ^ 18), distributed := 0,
          captain := "0xcap", status := .opened } := by
  refine ⟨by decide, by decide, by decide⟩

/-- C2: the claim states `round.distributed` is incremented by the sum of
the net amounts of the payouts that succeeded.  The code instead adds the
full batch `netTotal` unconditionally: here every payout fails (the run's
`payouts` list is empty, so the sum of successfully-paid nets is 0), yet
`distributed` goes from 0 to 95.  (The second half of the claim — status
`Completed` iff `distributed ≥ allocated`, else `Distributing` — is what
the code does, as the resulting status shows.) -/
theorem C2_distributed_counts_failed_payouts :
    (distribute st2 "s2" true (fun _ => false)).1
        = .ok { shipId := "s2", totalGross := 100, totalFee := 5, totalNet := 95,
                payouts := [] } ∧
    getMap (distribute st2 "s2" true (fun _ => false)).2.ships "s2"
        = some { budget := 100, allocated := 100, distributed := 95,
                 captain := "0xcap", status := .distributing } := by
  refine ⟨by decide, by decide⟩

/-- C3: the claim states a second `Decide` on an already-decided
application fails `InvalidState` and changes no state, and that a status
never reverts.  The code has no such guard: a second approving decision on
the already-Approved application `a3` succeeds (outcome `allocated 5`,
not an error), appends a second allocation and bumps `allocated` 10 → 15;
and an approving decision on the already-Rejected application reverts its
status to Approved. -/
theorem C3_no_invalid_state_guard :
    (decideAllocation st3 "a3" (some "0xcap") (some "0.000000000000000005") none "al3b").1
        = .allocated 5 ∧
    ((decideAllocation st3 "a3" (some "0xcap") (some "0.000000000000000005") none "al3b").2.allocs).length
        = 2 ∧
    getMap (decideAllocation st3 "a3" (some "0xcap") (some "0.000000000000000005") none "al3b").2.ships "s3"
        = some { ship3 with allocated := 15 } ∧
    (getMap (decideAllocation st3r "a3" (some "0xcap") (some "0.000000000000000005") none "al3r").2.apps "a3").map
        Application.status = some .approved := by
  refine ⟨by decide, by decide, by decide, by decide⟩

/-- C8: the per-allocation fee is the fixed 5%, `net = floor(amount·95/100)`:
a gross allocation of 1,000,000 smallest units pays out a net of 950,000
with 50,000 retained, as a full distribution run on such an allocation
shows. -/
theorem C8_five_percent_fee :
    netAmount 1000000 = 950000 ∧
    1000000 - netAmount 1000000 = 50000 ∧
    (distribute st8 "s8" true (fun _ => true)).1
        = .ok { shipId := "s8", totalGross := 1000000, totalFee := 50000,
                totalNet := 950000,
                payouts := [{ allocationId := "al8", projectName := "p",
                              applicant := "0xalice", gross := 1000000,
                              net := 950000 }] } := by
  refine ⟨by decide, by decide, by decide⟩

/-- C4: an approving decision fails `Forbidden` unless the caller
case-insensitively equals the round's approver (rounds store the approver
lowercased, hypothesis `hlc`); otherwise it parses the amount, compares it
with `remaining = budget − allocated`, fails `InsufficientBudget`
(reporting remaining and requested) when `amount > remaining`, and on
success creates the allocation, increments `round.allocated` by the
amount, and marks the application Approved with `allocatedAmount = amount`. -/
theorem C4_approval_path (st : St) (appId : String) (captain : Option String)
    (amount : Option String) (approved : Option JVal) (nid : String)
    (app : Application) (ship : Ship)
    (happ : getMap st.apps appId = some app)
    (hship : getMap st.ships app.shipId = some ship)
    (hlc : lowerString ship.captain = ship.captain)
    (hnr : approved ≠ some (JVal.bool false)) :
    (captain.map lowerString ≠ some (lowerString ship.captain) →
       decideAllocation st appId captain amount approved nid = (.errForbidden, st)) ∧
    (∀ c w, captain = some c → lowerString c = lowerString ship.captain →
       parseEther (amountString amount) = some w →
       (ship.budget - ship.allocated < w →
          decideAllocation st appId captain amount approved nid =
            (.errInsufficientBudget (ship.budget - ship.allocated) w, st)) ∧
       (w ≤ ship.budget - ship.allocated →
          (decideAllocation st appId captain amount approved nid).1 = .allocated w ∧
          getMap (decideAllocation st appId captain amount approved nid).2.ships app.shipId
            = some { ship with allocated := ship.allocated + w } ∧
          getMap (decideAllocation st appId captain amount approved nid).2.apps appId
            = some { app with status := .approved, allocation := w } ∧
          (decideAllocation st appId captain amount approved nid).2.allocs
            = st.allocs ++
              [{ id := nid, shipId := app.shipId, applicationId := appId,
                 projectName := app.projectName, applicant := app.applicant,
                 amount := w, distributed := false }])) := by
  constructor
  · intro hc
    rw [hlc] at hc
    exact decideAllocation_forbidden st appId captain amount approved nid app ship
      happ hship hc
  · intro c w hc hceq hparse
    have hcap : captain.map lowerString = some ship.captain := by
      rw [hc]
      simp [hceq, hlc]
    constructor
    · intro hgt
      exact decideAllocation_insufficient st appId captain amount approved nid app ship w
        happ hship hcap hnr hparse hgt
    · intro hle
      rw [decideAllocation_success st appId captain amount approved nid app ship w
        happ hship hcap hnr hparse hle]
      exact ⟨rfl, getMap_setMap_self _ _ _, getMap_setMap_self _ _ _, rfl⟩

/-- C4 witness: at the concrete fresh round `st0`, a caller other than the
approver is rejected with `Forbidden` and the state is unchanged. -/
theorem C4_witness :
    decideAllocation st0 "a1" (some "0xother") (some "1") none "al1"
      = (.errForbidden, st0) :=
  (C4_approval_path st0 "a1" (some "0xother") (some "1") none "al1" app0 ship0
    (by decide) (by decide) (by decide) (by decide)).1 (by decide)

/-- C9: a rejecting decision (`approved = false`) never changes the ships
store — so `round.allocated`, `round.budget` and `round.distributed` are
unchanged — and, when the caller is the approver, it sets the
application's status to Rejected. -/
theorem C9_reject_frame (st : St) (appId : String) (captain : Option String)
    (amount : Option String) (nid : String)
    (app : Application) (ship : Ship)
    (happ : getMap st.apps appId = some app)
    (hship : getMap st.ships app.shipId = some ship) :
    ((decideAllocation st appId captain amount (some (JVal.bool false)) nid).2.ships
        = st.ships) ∧
    (captain.map lowerString = some ship.captain →
       decideAllocation st appId captain amount (some (JVal.bool false)) nid =
         (.rejected,
          { st with apps := setMap st.apps appId { app with status := .rejected } }) ∧
       getMap (decideAllocation st appId captain amount (some (JVal.bool false)) nid).2.apps
           appId = some { app with status := .rejected }) := by
  constructor
  · by_cases hc : captain.map lowerString = some ship.captain
    · rw [decideAllocation_reject st appId captain amount nid app ship happ hship hc]
    · rw [decideAllocation_forbidden st appId captain amount (some (JVal.bool false)) nid
        app ship happ hship hc]
  · intro hc
    rw [decideAllocation_reject st appId captain amount nid app ship happ hship hc]
    exact ⟨rfl, getMap_setMap_self _ _ _⟩

/-- C9 witness: rejecting the pending application of the concrete round
`st0` marks it Rejected and leaves the ships store untouched. -/
theorem C9_witness :
    decideAllocation st0 "a1" (some "0xcap") none (some (JVal.bool false)) "n9" =
      (.rejected,
       { st0 with apps := setMap st0.apps "a1" { app0 with status := .rejected } }) :=
  ((C9_reject_frame st0 "a1" (some "0xcap") none "n9" app0 ship0
    (by decide) (by decide)).2 (by decide)).1

/-- C10: the source guards rejection with `approved === false`, so an
absent `approved` field — or any value other than the boolean `false`,
e.g. the string `"false"` — takes the approval path; an absent `amount`
defaults to `'0'`, which parses to 0 and passes the budget check whenever
`remaining ≥ 0`, so the call creates a zero-amount allocation and marks
the application Approved. -/
theorem C10_default_is_zero_approval (st : St) (appId : String)
    (captain : Option String) (approved : Option JVal) (nid : String)
    (app : Application) (ship : Ship)
    (happ : getMap st.apps appId = some app)
    (hship : getMap st.ships app.shipId = some ship)
    (hcap : captain.map lowerString = some ship.captain)
    (hnf : approved ≠ some (JVal.bool false))
    (hrem : 0 ≤ ship.budget - ship.allocated) :
    (decideAllocation st appId captain none approved nid).1 = .allocated 0 ∧
    getMap (decideAllocation st appId captain none approved nid).2.apps appId
      = some { app with status := .approved, allocation := 0 } ∧
    (decideAllocation st appId captain none approved nid).2.allocs
      = st.allocs ++
        [{ id := nid, shipId := app.shipId, applicationId := appId,
           projectName := app.projectName, applicant := app.applicant,
           amount := 0, distributed := false }] ∧
    getMap (decideAllocation st appId captain none approved nid).2.ships app.shipId
      = some { ship with allocated := ship.allocated + 0 } := by
  have hparse : parseEther (amountString none) = some 0 := by decide
  rw [decideAllocation_success st appId captain none approved nid app ship 0
    happ hship hcap hnf hparse hrem]
  exact ⟨rfl, getMap_setMap_self _ _ _, rfl, getMap_setMap_self _ _ _⟩

/-- C10 witness: on the concrete round `st0`, a decision with
`approved = "false"` (a string, not the boolean) and no amount approves
the application with a zero-amount allocation. -/
theorem C10_witness :
    (decideAllocation st0 "a1" (some "0xcap") none (some (JVal.str "false")) "n10").1
      = .allocated 0 :=
  (C10_default_is_zero_approval st0 "a1" (some "0xcap") (some (JVal.str "false")) "n10"
    app0 ship0 (by decide) (by decide) (by decide) (by decide) (by decide)).1

/-- Membership in the pending selection unpacks to the three filter
conditions plus membership in the allocations store. -/
theorem mem_pending (st : St) (sid : String) (a : Alloc)
    (ha : a ∈ pendingAllocations st sid) :
    a ∈ st.allocs ∧ a.shipId = sid ∧ a.distributed = false ∧ 0 < a.amount := by
  have h := List.mem_filter.mp ha
  have h2 := h.2
  simp only [Bool.and_eq_true, beq_iff_eq, Bool.not_eq_true',
    decide_eq_true_eq] at h2
  exact ⟨h.1, h2.1.1, h2.1.2, h2.2⟩

/-- C6: `Distribute` is safe to call repeatedly: an allocation with
`distributed = true` is never selected, every payout of a run comes from a
selected (hence previously undistributed) allocation, and a call with no
pending allocations fails `NothingToDistribute` with the state unchanged. -/
theorem C6_distribute_repeat_safe (st : St) (sid : String) (ship : Ship)
    (ok : Alloc → Bool)
    (hship : getMap st.ships sid = some ship) :
    (∀ a ∈ st.allocs, a.distributed = true → a ∉ pendingAllocations st sid) ∧
    (∀ rec st', distribute st sid true ok = (.ok rec, st') →
       ∀ p ∈ rec.payouts, ∃ a ∈ pendingAllocations st sid,
         a.distributed = false ∧ p.allocationId = a.id) ∧
    (pendingAllocations st sid = [] →
       distribute st sid true ok = (.errNothingToDistribute, st)) := by
  refine ⟨?_, ?_, ?_⟩
  · intro a _ hd hmem
    have := (mem_pending st sid a hmem).2.2.1
    rw [hd] at this
    exact Bool.noConfusion this
  · intro rec st' heq p hp
    by_cases hemp : pendingAllocations st sid = []
    · rw [distribute_nothing st sid ship ok hship hemp] at heq
      exact DistOutcome.noConfusion (congrArg Prod.fst heq)
    · rw [distribute_run st sid ship ok hship hemp] at heq
      have hrec := DistOutcome.ok.inj (congrArg Prod.fst heq)
      have hpay : rec.payouts = (payoutLoop ok (pendingAllocations st sid)).1 := by
        rw [← hrec]
      rw [hpay] at hp
      obtain ⟨a, hmem, hok, hmk⟩ := (payoutLoop_payouts_iff ok _ p).mp hp
      exact ⟨a, hmem, (mem_pending st sid a hmem).2.2.1, by rw [← hmk]; rfl⟩
  · exact distribute_nothing st sid ship ok hship

/-- C6 witness: on the concrete round `st6`, whose only allocation is
already distributed, a further `Distribute` call fails
`NothingToDistribute` and leaves the state unchanged. -/
theorem C6_witness :
    distribute st6 "s6" true (fun _ => true) = (.errNothingToDistribute, st6) :=
  (C6_distribute_repeat_safe st6 "s6" ship6 (fun _ => true) (by decide)).2.2 (by decide)

/-- C7: an approving decision fails `InvalidAmount` exactly when the
amount string does not parse, and `parseEther` accepts negative strings:
on the fresh zero-budget round `st0` the amount `"-1"` parses to
`-10^18` wei, passes the `amount > remaining` check, and an allocation of
negative amount is created, decreasing `round.allocated` from 0 to
`-10^18`. -/
theorem C7_invalid_amount_iff_parse_failure (st : St) (appId : String) (c : String)
    (amount : Option String) (approved : Option JVal) (nid : String)
    (app : Application) (ship : Ship)
    (happ : getMap st.apps appId = some app)
    (hship : getMap st.ships app.shipId = some ship)
    (hcap : lowerString c = ship.captain)
    (hnr : approved ≠ some (JVal.bool false)) :
    ((decideAllocation st appId (some c) amount approved nid).1 = .errInvalidAmount ↔
        parseEther (amountString amount) = none) ∧
    parseEther "-1" = some (-(10 ^ 18)) ∧
    (decideAllocation st0 "a1" (some "0xcap") (some "-1") none "n7").1
        = .allocated (-(10 ^ 18)) ∧
    getMap (decideAllocation st0 "a1" (some "0xcap") (some "-1") none "n7").2.ships "s1"
        = some { ship0 with allocated := -(10 ^ 18) } := by
  refine ⟨?_, by decide, by decide, by decide⟩
  have hcap' : (some c).map lowerString = some ship.captain := by simp [hcap]
  cases hp : parseEther (amountString amount) with
  | none =>
    rw [decideAllocation_invalidAmount st appId (some c) amount approved nid app ship
      happ hship hcap' hnr hp]
    simp
  | some w =>
    rcases lt_or_le (ship.budget - ship.allocated) w with hgt | hle
    · rw [decideAllocation_insufficient st appId (some c) amount approved nid app ship w
        happ hship hcap' hnr hp hgt]
      simp
    · rw [decideAllocation_success st appId (some c) amount approved nid app ship w
        happ hship hcap' hnr hp hle]
      simp

/-- C7 witness: `"-1"` parses to `-10^18` wei, instantiating the theorem
on the concrete round `st0`. -/
theorem C7_witness : parseEther "-1" = some (-(10 ^ 18)) :=
  (C7_invalid_amount_iff_parse_failure st0 "a1" "0xcap" (some "-1") none "n7" app0 ship0
    (by decide) (by decide) (by decide) (by decide)).2.1

/-- C5 counterexample: the claim says a failed payout appends a failed
outcome to the run's record, which then covers exactly the allocations
attempted in the call.  On `st2` one allocation (`alloc2`) is selected and
its payout fails, yet the returned record's `payouts` list is empty — the
failed attempt appears nowhere in the record (the code only logs it). -/
theorem C5_counterexample :
    pendingAllocations st2 "s2" = [alloc2] ∧
    (distribute st2 "s2" true (fun _ => false)).1
        = .ok { shipId := "s2", totalGross := 100, totalFee := 5, totalNet := 95,
                payouts := [] } ∧
    (distribute st2 "s2" true (fun _ => false)).2.allocs = [alloc2] := by
  refine ⟨by decide, by decide, by decide⟩

/-- C5 (amended): when a payout inside `Distribute` fails, the allocation
keeps `distributed = false` and processing continues with the remaining
allocations, but no failed outcome is recorded: the returned record's
`payouts` list covers exactly the successful payouts of the call (every
allocation whose payout succeeded appears; the failed one appears
nowhere). -/
theorem C5_failed_payout_not_recorded (st : St) (sid : String) (ship : Ship)
    (ok : Alloc → Bool) (a : Alloc)
    (hship : getMap st.ships sid = some ship)
    (hnodup : ((pendingAllocations st sid).map Alloc.id).Nodup)
    (ha : a ∈ pendingAllocations st sid)
    (hfail : ok a = false) :
    ∃ rec st', distribute st sid true ok = (.ok rec, st') ∧
      (∀ p ∈ rec.payouts, p.allocationId ≠ a.id) ∧
      (∃ b ∈ st'.allocs, b.id = a.id ∧ b.distributed = false) ∧
      (∀ c ∈ pendingAllocations st sid, ok c = true → mkPayout c ∈ rec.payouts) := by
  have hne : pendingAllocations st sid ≠ [] := by
    intro h
    rw [h] at ha
    exact List.not_mem_nil a ha
  have hinj := List.inj_on_of_nodup_map hnodup
  have hnotin : a.id ∉ (payoutLoop ok (pendingAllocations st sid)).2 := by
    intro hmem
    obtain ⟨b, hb, hbok, hbid⟩ := (payoutLoop_ids_iff ok _ _).mp hmem
    rw [hinj hb ha hbid, hfail] at hbok
    exact Bool.noConfusion hbok
  refine ⟨_, _, distribute_run st sid ship ok hship hne, ?_, ?_, ?_⟩
  · intro p hp heq
    obtain ⟨b, hb, hbok, hbp⟩ := (payoutLoop_payouts_iff ok _ p).mp hp
    have hbid : b.id = a.id := by rw [← hbp] at heq; exact heq
    rw [hinj hb ha hbid, hfail] at hbok
    exact Bool.noConfusion hbok
  · obtain ⟨hmem, _, hdist, _⟩ := mem_pending st sid a ha
    refine ⟨a, ?_, rfl, hdist⟩
    have hc : ((payoutLoop ok (pendingAllocations st sid)).2.contains a.id) = false := by
      cases hcc : (payoutLoop ok (pendingAllocations st sid)).2.contains a.id with
      | false => rfl
      | true => exact absurd (by simpa using hcc) hnotin
    have hfa :
        (fun b => if (payoutLoop ok (pendingAllocations st sid)).2.contains b.id
                  then { b with distributed := true } else b) a = a := by
      simp only [hc]
      simp
    have := List.mem_map_of_mem
      (fun b => if (payoutLoop ok (pendingAllocations st sid)).2.contains b.id
                then { b with distributed := true } else b) hmem
    rw [hfa] at this
    exact this
  · intro c hc hok
    exact (payoutLoop_payouts_iff ok _ (mkPayout c)).mpr ⟨c, hc, hok, rfl⟩

/-- C5 witness: on the round `st5` with two pending allocations, an oracle
failing the first (`x1`) and succeeding on the second (`x2`) instantiates
the partial-failure semantics. -/
theorem C5_witness :
    ∃ rec st', distribute st5 "s5" true (fun b => b.id == "x2") = (.ok rec, st') ∧
      (∀ p ∈ rec.payouts, p.allocationId ≠ alloc5a.id) ∧
      (∃ b ∈ st'.allocs, b.id = alloc5a.id ∧ b.distributed = false) ∧
      (∀ c ∈ pendingAllocations st5 "s5", (fun b => b.id == "x2") c = true →
         mkPayout c ∈ rec.payouts) :=
  C5_failed_payout_not_recorded st5 "s5" ship5 (fun b => b.id == "x2") alloc5a
    (by decide) (by decide) (by decide) (by decide)

end GrantShips
